import Mathlib

/-!
# Verification of the morse-radio link protocol engine

Shallow embedding of the core components of the `openclaw-channel-cqlaw`
repository: the CW text sanitizer (`src/cw-sanitize.ts`), the CW formatter
(`cw-format.ts`), the sentence buffer / utterance framer
(`src/qso-memory.ts`, class `SentenceBuffer`), the transmitter safety state
machine (`src/service.ts`, class `Transmitter`) and the polling loop with
reconnect backoff (`fldigi-poller.ts`, class `FldigiPoller`).

Conventions of the embedding:
* JavaScript strings are modelled as Lean `String` (a list of characters);
  `String.prototype.toUpperCase` is modelled character-wise with the ASCII
  mapping (the characters the sanitizer keeps are all ASCII).
* Timestamps (`Date.now()`) are passed explicitly as a `Nat` parameter
  `now`; the several `Date.now()` calls inside one method invocation are
  modelled as the same instant.  Subtraction of timestamps uses truncated
  `Nat` subtraction; every comparison the code performs on a time
  difference gives the same verdict under truncation as under JS signed
  arithmetic because the thresholds are positive.
* Asynchronous decoder (fldigi XML-RPC) calls are modelled as succeeding;
  each method additionally returns the trace of decoder calls it issued,
  as a `List ClientCall`.
* Stateful methods become pure functions `state → inputs → result × state'
  × trace`.
-/

namespace CQLaw

/-- JS `\s` character class, by code point: space, tab, LF, VT, FF, CR,
NBSP, U+1680, U+2000-U+200A, U+2028, U+2029, U+202F, U+205F, U+3000,
U+FEFF (the set matched by the `/\s+/g` regexes in `cw-sanitize.ts` and
`qso-memory.ts`). -/
def isJsWhitespace (c : Char) : Bool :=
  c.toNat = 0x20 || c.toNat = 0x09 || c.toNat = 0x0a || c.toNat = 0x0b ||
  c.toNat = 0x0c || c.toNat = 0x0d || c.toNat = 0xa0 || c.toNat = 0x1680 ||
  (0x2000 <= c.toNat && c.toNat <= 0x200a) || c.toNat = 0x2028 ||
  c.toNat = 0x2029 || c.toNat = 0x202f || c.toNat = 0x205f ||
  c.toNat = 0x3000 || c.toNat = 0xfeff

/-- `VALID_CW_CHARS` from `src/cw-sanitize.ts`:
`/[A-Z0-9 .,?!'"/()&:;=+\-_@]/`, by code point: `A`-`Z` (0x41-0x5a),
`0`-`9` (0x30-0x39), space, and the listed punctuation. -/
def isValidCwChar (c : Char) : Bool :=
  (0x41 <= c.toNat && c.toNat <= 0x5a) || (0x30 <= c.toNat && c.toNat <= 0x39) ||
  c.toNat = 0x20 || c.toNat = 0x2e || c.toNat = 0x2c || c.toNat = 0x3f ||
  c.toNat = 0x21 || c.toNat = 0x27 || c.toNat = 0x22 || c.toNat = 0x2f ||
  c.toNat = 0x28 || c.toNat = 0x29 || c.toNat = 0x26 || c.toNat = 0x3a ||
  c.toNat = 0x3b || c.toNat = 0x3d || c.toNat = 0x2b || c.toNat = 0x2d ||
  c.toNat = 0x5f || c.toNat = 0x40

/-- Character-wise model of `String.prototype.toUpperCase` (the ASCII
case mapping `a`-`z` to `A`-`Z`; sufficient for the character set kept by
the sanitizer). -/
def jsToUpper (c : Char) : Char :=
  if 0x61 <= c.toNat && c.toNat <= 0x7a then Char.ofNat (c.toNat - 32) else c

/-- Core of `replace(/\s+/g, " ")`: the boolean argument records whether
the previous character written belonged to a whitespace run. -/
def collapseWsGo : Bool → List Char → List Char
  | _, [] => []
  | prevWs, c :: rest =>
    if isJsWhitespace c then
      if prevWs then collapseWsGo true rest
      else ' ' :: collapseWsGo true rest
    else c :: collapseWsGo false rest

/-- `replace(/\s+/g, " ")`: every maximal whitespace run becomes one
space. -/
def collapseWs (l : List Char) : List Char := collapseWsGo false l

/-- Remove the trailing whitespace run of a character list. -/
def dropTrailingWs : List Char → List Char
  | [] => []
  | c :: rest =>
    let r := dropTrailingWs rest
    if r.isEmpty && isJsWhitespace c then [] else c :: r

/-- JS `String.prototype.trim`: strip leading and trailing whitespace. -/
def jsTrim (l : List Char) : List Char :=
  dropTrailingWs (l.dropWhile isJsWhitespace)

/-- No two adjacent whitespace characters (every whitespace run has
length one). -/
def noAdjWs : List Char → Bool
  | c1 :: c2 :: rest => !(isJsWhitespace c1 && isJsWhitespace c2) && noAdjWs (c2 :: rest)
  | _ => true

/-- The list does not start with a whitespace character. -/
def headNotWs : List Char → Bool
  | [] => true
  | c :: _ => !isJsWhitespace c

/-- The list does not end with a whitespace character. -/
def noTrailWs : List Char → Bool
  | [] => true
  | [c] => !isJsWhitespace c
  | _ :: c :: rest => noTrailWs (c :: rest)

/-- `sanitizeForCw` from `src/cw-sanitize.ts`: uppercase, keep only
`VALID_CW_CHARS`, collapse whitespace runs, trim edges. -/
def sanitizeForCw (s : String) : String :=
  ⟨jsTrim (collapseWs ((s.data.map jsToUpper).filter isValidCwChar))⟩

example : sanitizeForCw "hello™ world®" = "HELLO WORLD" := by decide
example : sanitizeForCw "  a   b  " = "A B" := by decide
example : sanitizeForCw "™®" = "" := by decide

/-! ## String helpers shared by the embedding -/

/-- `n` is a prefix of `h`, on character lists. -/
def isPrefixCh : List Char → List Char → Bool
  | [], _ => true
  | _ :: _, [] => false
  | a :: as, b :: bs => a == b && isPrefixCh as bs

/-- JS `String.prototype.startsWith`. -/
def jsStartsWith (s p : String) : Bool := isPrefixCh p.data s.data

/-- JS `String.prototype.endsWith`. -/
def jsEndsWith (s p : String) : Bool := isPrefixCh p.data.reverse s.data.reverse

/-- JS `String.prototype.includes`: contiguous-substring containment. -/
def jsIncludes : List Char → List Char → Bool
  | hay, needle =>
    isPrefixCh needle hay ||
      match hay with
      | [] => false
      | _ :: rest => jsIncludes rest needle

/-- Character-wise model of `toUpperCase` on a whole string. -/
def jsUpperStr (s : String) : String := ⟨s.data.map jsToUpper⟩

/-! ## SentenceBuffer (`src/qso-memory.ts`)

The silence timer is modelled as a boolean `timerArmed` (the claims under
study do not depend on the timer's deadline, only on whether a pending
timer exists and is cancelled).  `push` and `flush` return the emitted
message, if any, instead of invoking a callback. -/

/-- `FLUSH_PROSIGNS` from `src/qso-memory.ts`. -/
def FLUSH_PROSIGNS : List String := [" AR", " SK", " KN", " BK"]

/-- `K_PATTERN = / K$/` applied to a string: a space followed by `K` at
the very end. -/
def kPatternTest (s : String) : Bool := jsEndsWith s " K"

/-- `SentenceBuffer.shouldFlushOnProsign`. -/
def shouldFlushOnProsign (buffer : String) : Bool :=
  let upper := jsUpperStr buffer
  FLUSH_PROSIGNS.any (fun p => jsEndsWith upper p) || kPatternTest upper

/-- `SentenceBuffer.normalize`: `replace(/\s+/g, " ").trim()`. -/
def sbNormalize (s : String) : String := ⟨jsTrim (collapseWs s.data)⟩

/-- The mutable state of a `SentenceBuffer`. -/
structure SB where
  buffer : String
  timerArmed : Bool
  deriving Repr, DecidableEq

/-- `SentenceBuffer.flush`: cancel the timer, normalize and clear the
buffer, emit the normalized message when it is non-empty. -/
def SB.flush (sb : SB) : SB × Option String :=
  let message := sbNormalize sb.buffer
  (⟨"", false⟩, if message ≠ "" then some message else none)

/-- `SentenceBuffer.reset`: discard the buffer, cancel the timer, emit
nothing. -/
def SB.reset (_ : SB) : SB := ⟨"", false⟩

/-- `SentenceBuffer.push`: append the fragment (no-op when empty), restart
the silence timer, flush if a terminator is detected. -/
def SB.push (sb : SB) (text : String) : SB × Option String :=
  if text = "" then (sb, none)
  else
    let sb1 : SB := ⟨sb.buffer ++ text, true⟩
    if shouldFlushOnProsign sb1.buffer then sb1.flush else (sb1, none)

example : (SB.push ⟨"", false⟩ "CQ CQ DE PA3XYZ K").2 = some "CQ CQ DE PA3XYZ K" := by decide
example : (SB.push ⟨"", false⟩ "WORK").2 = none := by decide
example : (SB.push ⟨"", false⟩ "K").2 = none := by decide
example : (SB.push ⟨"", false⟩ "PA3XYZ DE DL2ABC KN").2 = some "PA3XYZ DE DL2ABC KN" := by decide

/-! ## CW formatting (`cw-format.ts`) -/

/-- `TxIntent` from `cw-format.ts`. -/
inductive TxIntent
  | cq
  | reply
  | signoff
  | dflt
  deriving Repr, DecidableEq

/-- `CLOSING_PROSIGN` record from `cw-format.ts`. -/
def CLOSING_PROSIGN : TxIntent → String
  | .cq => "K"
  | .reply => "KN"
  | .signoff => "SK"
  | .dflt => "KN"

/-- `ALL_CLOSING_PROSIGNS` from `cw-format.ts`. -/
def ALL_CLOSING_PROSIGNS : List String := [" K", " KN", " SK", " AR", " BK"]

/-- `formatForCw` from `cw-format.ts`: prepend addressing appropriate to
the intent unless already present, then append the intent's closing
prosign unless the text already ends in a recognized closing prosign.
`peerCall = some ""` behaves like `none` (JS truthiness of
`else if (peerCall)`). -/
def formatForCw (text : String) (intent : TxIntent) (ownCall : String)
    (peerCall : Option String) : String :=
  let result := text
  let result :=
    if intent = .cq then
      let deOwn := "DE " ++ ownCall
      if jsIncludes result.data deOwn.data then result
      else result ++ " " ++ deOwn
    else
      match peerCall with
      | some pc =>
        if pc ≠ "" then
          let addressing := pc ++ " DE " ++ ownCall
          if jsStartsWith result addressing then result
          else addressing ++ " " ++ result
        else result
      | none => result
  if ALL_CLOSING_PROSIGNS.any (fun p => jsEndsWith result p) then result
  else result ++ " " ++ CLOSING_PROSIGN intent

example : formatForCw "CQ CQ" .cq "PA3XYZ" none = "CQ CQ DE PA3XYZ K" := by decide
example : formatForCw "RST 599" .reply "PA3XYZ" (some "DL2ABC") =
    "DL2ABC DE PA3XYZ RST 599 KN" := by decide

/-! ## Transmitter (`src/service.ts`) -/

/-- Timing constants from `src/service.ts`. -/
def TX_COOLDOWN_MS : Nat := 500

/-- `LEGAL_ID_INTERVAL_MS = 10 * 60 * 1000`. -/
def LEGAL_ID_INTERVAL_MS : Nat := 10 * 60 * 1000

/-- `LISTEN_BEFORE_TX_MS = 10_000`. -/
def LISTEN_BEFORE_TX_MS : Nat := 10000

/-- `QRL_WAIT_MS = 5000`. -/
def QRL_WAIT_MS : Nat := 5000

/-- The `tx` section of `ChannelConfig` (`src/config.ts`). -/
structure TxConfig where
  enabled : Bool
  inhibit : Bool
  maxDurationSeconds : Nat
  wpm : Nat
  callsign : String
  deriving Repr, DecidableEq

/-- The slice of `ChannelConfig` the transmitter reads. -/
structure ChannelConfig where
  frequency : Nat
  tx : TxConfig
  deriving Repr, DecidableEq

/-- `TransmitResult` from `src/service.ts`. -/
structure TransmitResult where
  success : Bool
  error : Option String
  transmitted : Option String
  deriving Repr, DecidableEq

/-- The mutable fields of class `Transmitter`:
`lastTxTime`, `lastIdTime`, `listenStartTime` (all `0` initially, meaning
"never"), `qrlCheckedForFrequency`, `inhibited`, and the armed duration
watchdog `txDurationTimer` (modelled as its duration in ms when armed). -/
structure TxState where
  lastTxTime : Nat
  lastIdTime : Nat
  listenStartTime : Nat
  qrlCheckedForFrequency : Option Nat
  inhibited : Bool
  txDurationTimer : Option Nat
  deriving Repr, DecidableEq

/-- Decoder (fldigi) calls a transmitter method can issue, in order. -/
inductive ClientCall
  | setWpm (wpm : Nat)
  | sendTxText (text : String)
  | startTx
  | stopTx
  | abortTx
  | getRxLength
  deriving Repr, DecidableEq

/-- `Transmitter.preflightChecks`: TX enabled, not inhibited, callsign
configured (`!this.config.tx.callsign` is JS falsiness of the empty
string). Returns the failure result, or `none` when all three pass. -/
def preflightChecks (cfg : ChannelConfig) (st : TxState) : Option TransmitResult :=
  if !cfg.tx.enabled then
    some ⟨false, some "TX is disabled in config", none⟩
  else if st.inhibited then
    some ⟨false, some "TX is inhibited (emergency stop active)", none⟩
  else if cfg.tx.callsign = "" then
    some ⟨false, some "TX callsign is not configured", none⟩
  else none

/-- `Transmitter.checkCooldown` at instant `now`. -/
def checkCooldown (st : TxState) (now : Nat) : Option TransmitResult :=
  let elapsed := now - st.lastTxTime
  if st.lastTxTime > 0 ∧ elapsed < TX_COOLDOWN_MS then
    some ⟨false, some ("TX cooldown: wait " ++ toString (TX_COOLDOWN_MS - elapsed) ++ "ms"), none⟩
  else none

/-- `Transmitter.checkListenGuard` at instant `now`. -/
def checkListenGuard (st : TxState) (now : Nat) : Option TransmitResult :=
  if st.listenStartTime = 0 then
    some ⟨false, some "Must listen before transmitting (receiver not started)", none⟩
  else
    let listenDuration := now - st.listenStartTime
    if listenDuration < LISTEN_BEFORE_TX_MS then
      let remaining := LISTEN_BEFORE_TX_MS - listenDuration
      some ⟨false, some ("Listen-before-transmit: " ++ toString ((remaining + 999) / 1000) ++ "s remaining"), none⟩
    else none

/-- `Transmitter.resolveWpm`: `detectedRxWpm && detectedRxWpm >= 5` (JS
truthiness excludes `0`), `Math.floor(w / 2) * 2` clamped to `[5, 60]`;
otherwise the configured default. -/
def resolveWpm (cfg : ChannelConfig) (detectedRxWpm : Option Nat) : Nat :=
  match detectedRxWpm with
  | some w =>
    if w ≠ 0 ∧ 5 ≤ w then max 5 (min (w / 2 * 2) 60)
    else cfg.tx.wpm
  | none => cfg.tx.wpm

example : resolveWpm ⟨7030000, true, false, 120, 20, "PA3XYZ"⟩ (some 23) = 22 := by decide
example : resolveWpm ⟨7030000, true, false, 120, 18, "PA3XYZ"⟩ none = 18 := by decide
example : resolveWpm ⟨7030000, true, false, 120, 20, "PA3XYZ"⟩ (some 5) = 5 := by decide

/-- `Transmitter.isLegalIdDue` at instant `now`. -/
def isLegalIdDue (st : TxState) (now : Nat) : Bool :=
  if st.lastIdTime = 0 then true
  else decide (LEGAL_ID_INTERVAL_MS ≤ now - st.lastIdTime)

/-- `Transmitter.send` at instant `now`, on the path where the decoder
calls succeed.  Returns the `TransmitResult`, the updated state, and the
trace of decoder calls issued. -/
def send (cfg : ChannelConfig) (st : TxState) (now : Nat) (text : String)
    (detectedRxWpm : Option Nat) (intent : Option TxIntent)
    (peerCall : Option String) :
    TransmitResult × TxState × List ClientCall :=
  match preflightChecks cfg st with
  | some r => (r, st, [])
  | none =>
  match checkCooldown st now with
  | some r => (r, st, [])
  | none =>
  match checkListenGuard st now with
  | some r => (r, st, [])
  | none =>
    let sanitized := sanitizeForCw text
    if sanitized = "" then
      (⟨false, some "Text is empty after sanitization", none⟩, st, [])
    else
      let formatted := formatForCw sanitized (intent.getD .dflt) cfg.tx.callsign peerCall
      let txWpm := resolveWpm cfg detectedRxWpm
      let idNeeded := isLegalIdDue st now
      let finalText := if idNeeded then formatted ++ " DE " ++ cfg.tx.callsign else formatted
      let st1 := if idNeeded then { st with lastIdTime := now } else st
      let st2 := { st1 with
        txDurationTimer := some (cfg.tx.maxDurationSeconds * 1000),
        lastTxTime := now }
      let st3 := if st2.lastIdTime = 0 then { st2 with lastIdTime := now } else st2
      (⟨true, none, some finalText⟩, st3,
        [ClientCall.setWpm txWpm, ClientCall.sendTxText finalText, ClientCall.startTx])

/-- The text a successful `send` hands to the decoder: formatted text with
the legal-ID suffix when identification is due. -/
def sendFinalText (cfg : ChannelConfig) (st : TxState) (now : Nat) (text : String)
    (intent : Option TxIntent) (peerCall : Option String) : String :=
  let formatted := formatForCw (sanitizeForCw text) (intent.getD .dflt) cfg.tx.callsign peerCall
  if isLegalIdDue st now then formatted ++ " DE " ++ cfg.tx.callsign else formatted

/-- The transmitter state after a successful `send` at instant `now`. -/
def sendSuccState (cfg : ChannelConfig) (st : TxState) (now : Nat) : TxState :=
  let st1 := if isLegalIdDue st now then { st with lastIdTime := now } else st
  let st2 := { st1 with
    txDurationTimer := some (cfg.tx.maxDurationSeconds * 1000),
    lastTxTime := now }
  if st2.lastIdTime = 0 then { st2 with lastIdTime := now } else st2

/-- `Transmitter.checkQrl`, on the path where the decoder calls succeed.
`rxBefore` and `rxAfter` are the receive-buffer lengths the decoder reports
before and after the `QRL_WAIT_MS` wait. -/
def checkQrl (cfg : ChannelConfig) (st : TxState) (rxBefore rxAfter : Nat) :
    Bool × TxState × List ClientCall :=
  match preflightChecks cfg st with
  | some _ => (false, st, [])
  | none =>
    let trace := [ClientCall.getRxLength, ClientCall.sendTxText "QRL?",
      ClientCall.startTx, ClientCall.getRxLength]
    if rxAfter > rxBefore then
      (false, { st with qrlCheckedForFrequency := none }, trace)
    else
      (true, { st with qrlCheckedForFrequency := some cfg.frequency }, trace)

/-! ## FldigiPoller (`fldigi-poller.ts`) -/

/-- `BACKOFF_INITIAL_MS = 1000`. -/
def BACKOFF_INITIAL_MS : Nat := 1000

/-- `BACKOFF_MAX_MS = 30000`. -/
def BACKOFF_MAX_MS : Nat := 30000

/-- `FldigiPoller.scheduleReconnect` acting on the `backoffMs` field: it
schedules the retry after the *current* `backoffMs` (first component) and
then doubles the field, capped at `BACKOFF_MAX_MS` (second component). -/
def scheduleReconnect (backoffMs : Nat) : Nat × Nat :=
  (backoffMs, min (backoffMs * 2) BACKOFF_MAX_MS)

/-- `FldigiPoller.tryConnect` acting on `backoffMs`: on success the field
is reset to `BACKOFF_INITIAL_MS` and no retry is scheduled; on failure
`scheduleReconnect` runs.  Returns the new `backoffMs` and the scheduled
retry delay, if any. -/
def tryConnectBackoff (success : Bool) (backoffMs : Nat) : Nat × Option Nat :=
  if success then (BACKOFF_INITIAL_MS, none)
  else
    let s := scheduleReconnect backoffMs
    (s.2, some s.1)

/-- The `backoffMs` field after `n` consecutive failed attempts, starting
from a fresh (or just-reset) value. -/
def backoffAfter : Nat → Nat
  | 0 => BACKOFF_INITIAL_MS
  | n + 1 => (scheduleReconnect (backoffAfter n)).2

/-- The delay scheduled for the `n`-th consecutive failed attempt
(0-indexed): `scheduleReconnect` schedules the *current* `backoffMs`. -/
def nthRetryDelay (n : Nat) : Nat := (scheduleReconnect (backoffAfter n)).1

example : [nthRetryDelay 0, nthRetryDelay 1, nthRetryDelay 2, nthRetryDelay 3,
    nthRetryDelay 4, nthRetryDelay 5, nthRetryDelay 6] =
    [1000, 2000, 4000, 8000, 16000, 30000, 30000] := by decide

/-- The poller state the receive path mutates: the read cursor `rxOffset`
and the sentence buffer. -/
structure PollerState where
  rxOffset : Nat
  sb : SB
  deriving Repr, DecidableEq

/-- One successful poll cycle of `FldigiPoller.poll` (steps 1–2: restart
detection and delta read).  `currentLength` is the remote buffer length
reported by `getRxLength`; `slice` is the text `getRxText` returns for the
delta.  Returns the new state and the message the sentence buffer emitted,
if any. -/
def pollStep (st : PollerState) (currentLength : Nat) (slice : String) :
    PollerState × Option String :=
  let st1 : PollerState :=
    if currentLength < st.rxOffset then ⟨currentLength, st.sb.reset⟩ else st
  if currentLength > st1.rxOffset then
    if slice ≠ "" then
      let p := st1.sb.push slice
      (⟨currentLength, p.1⟩, p.2)
    else
      (⟨currentLength, st1.sb⟩, none)
  else (st1, none)

example : pollStep ⟨50, ⟨"HELLO", true⟩⟩ 10 "" = (⟨10, ⟨"", false⟩⟩, none) := by decide
example : (pollStep ⟨3, ⟨"AB", true⟩⟩ 5 "CD").1.sb.buffer = "ABCD" := by decide

/-- A concrete channel configuration (TX enabled, not inhibited, callsign
configured, default speed 20 WPM) used for concrete evaluations. -/
def exampleCfg : ChannelConfig := ⟨7030000, ⟨true, false, 120, 20, "PA3XYZ"⟩⟩

/-! ## Helper lemmas -/

theorem backoffAfter_bounds (n : Nat) :
    BACKOFF_INITIAL_MS ≤ backoffAfter n ∧ backoffAfter n ≤ BACKOFF_MAX_MS := by
  induction n with
  | zero => exact ⟨Nat.le_refl _, by decide⟩
  | succ n ih =>
    simp only [backoffAfter, scheduleReconnect]
    unfold BACKOFF_INITIAL_MS BACKOFF_MAX_MS at *
    omega

theorem collapseWsGo_true_allWs (l : List Char)
    (h : ∀ c ∈ l, isJsWhitespace c = true) : collapseWsGo true l = [] := by
  induction l with
  | nil => rfl
  | cons c rest ih =>
    simp only [collapseWsGo, h c (List.mem_cons_self c rest), if_pos]
    exact ih fun d hd => h d (List.mem_cons_of_mem c hd)

theorem sbNormalize_allWs (s : String)
    (h : s.data.all isJsWhitespace = true) : sbNormalize s = "" := by
  rcases s with ⟨l⟩
  rcases l with _ | ⟨c, rest⟩
  · rfl
  · simp only [List.all_cons, Bool.and_eq_true, List.all_eq_true] at h
    have hcol : collapseWs (c :: rest) = [' '] := by
      simp [collapseWs, collapseWsGo, h.1, collapseWsGo_true_allWs rest h.2]
    simp only [sbNormalize]
    rw [hcol]
    rfl

theorem strData_append (a b : String) : (a ++ b).data = a.data ++ b.data := by
  cases a; cases b; rfl

theorem isPrefixCh_self_append (l m : List Char) : isPrefixCh l (l ++ m) = true := by
  induction l with
  | nil => rfl
  | cons c rest ih => simp [isPrefixCh, ih]

theorem jsEndsWith_append (a b : String) : jsEndsWith (a ++ b) b = true := by
  simp only [jsEndsWith, strData_append, List.reverse_append]
  exact isPrefixCh_self_append _ _

theorem preflight_fail_result (cfg : ChannelConfig) (st : TxState) (r : TransmitResult)
    (h : preflightChecks cfg st = some r) : r.success = false := by
  unfold preflightChecks at h
  split at h
  · cases h; rfl
  · split at h
    · cases h; rfl
    · split at h
      · cases h; rfl
      · cases h

theorem cooldown_fail_result (st : TxState) (now : Nat) (r : TransmitResult)
    (h : checkCooldown st now = some r) : r.success = false := by
  simp only [checkCooldown] at h
  split at h
  · cases h; rfl
  · cases h

theorem listen_fail_result (st : TxState) (now : Nat) (r : TransmitResult)
    (h : checkListenGuard st now = some r) : r.success = false := by
  simp only [checkListenGuard] at h
  split at h
  · cases h; rfl
  · split at h
    · cases h; rfl
    · cases h

theorem preflightChecks_inhibited_congr (cfg : ChannelConfig) (st st' : TxState)
    (h : st.inhibited = st'.inhibited) :
    preflightChecks cfg st = preflightChecks cfg st' := by
  unfold preflightChecks
  rw [h]

theorem send_success_eq (cfg : ChannelConfig) (st : TxState) (now : Nat)
    (text : String) (w : Option Nat) (intent : Option TxIntent) (pc : Option String)
    (hpf : preflightChecks cfg st = none) (hcd : checkCooldown st now = none)
    (hlg : checkListenGuard st now = none) (hsan : sanitizeForCw text ≠ "") :
    send cfg st now text w intent pc =
      (⟨true, none, some (sendFinalText cfg st now text intent pc)⟩,
       sendSuccState cfg st now,
       [ClientCall.setWpm (resolveWpm cfg w),
        ClientCall.sendTxText (sendFinalText cfg st now text intent pc),
        ClientCall.startTx]) := by
  simp only [send, hpf, hcd, hlg]
  rw [if_neg hsan]
  rfl

theorem sendSuccState_lastTxTime (cfg : ChannelConfig) (st : TxState) (now : Nat) :
    (sendSuccState cfg st now).lastTxTime = now := by
  simp only [sendSuccState]
  split <;> split <;> rfl

theorem sendSuccState_inhibited (cfg : ChannelConfig) (st : TxState) (now : Nat) :
    (sendSuccState cfg st now).inhibited = st.inhibited := by
  simp only [sendSuccState]
  split <;> split <;> rfl

theorem sendSuccState_lastIdTime_of_due (cfg : ChannelConfig) (st : TxState) (now : Nat)
    (h : isLegalIdDue st now = true) :
    (sendSuccState cfg st now).lastIdTime = now := by
  simp only [sendSuccState, h, if_true]
  split <;> rfl

/-! ## Claim theorems -/

/-- Claim C5. The claim states that a bare `K` as the entire accumulator
(start-of-buffer word boundary) triggers an immediate flush.  The code's
own comment on `K_PATTERN` says the `K` must be "preceded by a space (or
start-of-buffer)", but the regex `/ K$/` requires a literal space, so the
start-of-buffer case never fires: `push("K")` on an empty buffer does not
flush.  The space-preceded case and the mid-word non-flush case behave as
claimed.  This theorem evaluates the embedded code at the failing input
and at the two agreeing kinds of input. -/
theorem bareK_startOfBuffer_no_flush :
    shouldFlushOnProsign "K" = false ∧
    SB.push ⟨"", false⟩ "K" = (⟨"K", true⟩, none) ∧
    shouldFlushOnProsign "CQ CQ DE PA3XYZ K" = true ∧
    shouldFlushOnProsign "NETWORK" = false := by decide

/-- Claim C6: across one poll cycle the receive cursor never decreases
when the reported remote length is at least the cursor; when the reported
length is strictly smaller, the cursor is snapped to that smaller length
and the framer is reset — the pending accumulator is discarded with no
emission and the post-restart state holds an empty accumulator (so pending
content is never concatenated with post-restart text). -/
theorem pollStep_cursor_resync (st : PollerState) (len : Nat) (slice : String) :
    (st.rxOffset ≤ len → st.rxOffset ≤ (pollStep st len slice).1.rxOffset) ∧
    (len < st.rxOffset → pollStep st len slice = (⟨len, ⟨"", false⟩⟩, none)) := by
  constructor
  · intro h
    have h1 : ¬ len < st.rxOffset := by omega
    by_cases h2 : st.rxOffset < len
    · simp only [pollStep, SB.reset, if_neg h1, if_pos h2]
      split
      · exact Nat.le_of_lt h2
      · exact Nat.le_of_lt h2
    · simp only [pollStep, SB.reset, if_neg h1, if_neg h2]
      exact Nat.le_refl _
  · intro h
    simp only [pollStep, SB.reset, if_pos h]
    simp

/-- Witness for `pollStep_cursor_resync` at a concrete state: cursor 50,
pending accumulator `"HELLO"`, remote length 10. -/
theorem pollStep_cursor_resync_witness :
    pollStep ⟨50, ⟨"HELLO", true⟩⟩ 10 "" = (⟨10, ⟨"", false⟩⟩, none) ∧
    (3 : Nat) ≤ (pollStep ⟨3, ⟨"AB", true⟩⟩ 5 "CD").1.rxOffset :=
  ⟨(pollStep_cursor_resync ⟨50, ⟨"HELLO", true⟩⟩ 10 "").2 (by decide),
   (pollStep_cursor_resync ⟨3, ⟨"AB", true⟩⟩ 5 "CD").1 (by decide)⟩

/-- Claim C7: the retry delays of consecutive failed connect attempts form
a non-decreasing sequence starting at `1000` ms that doubles (capped at
`30000` ms) on each failure, stays within `[1000, 30000]`, and any
successful connect resets the backoff to `1000` ms. -/
theorem backoff_growth :
    nthRetryDelay 0 = 1000 ∧
    (∀ n, nthRetryDelay (n + 1) = min (nthRetryDelay n * 2) 30000) ∧
    (∀ n, nthRetryDelay n ≤ nthRetryDelay (n + 1)) ∧
    (∀ n, 1000 ≤ nthRetryDelay n ∧ nthRetryDelay n ≤ 30000) ∧
    (∀ b, tryConnectBackoff true b = (1000, none)) ∧
    (∀ b, tryConnectBackoff false b = (min (b * 2) 30000, some b)) := by
  have hdelay : ∀ n, nthRetryDelay n = backoffAfter n := fun n => rfl
  refine ⟨rfl, fun n => rfl, fun n => ?_, fun n => ?_, fun b => rfl, fun b => rfl⟩
  · have h := backoffAfter_bounds n
    rw [hdelay, hdelay]
    simp only [backoffAfter, scheduleReconnect]
    simp only [BACKOFF_INITIAL_MS, BACKOFF_MAX_MS] at h ⊢
    omega
  · have h := backoffAfter_bounds n
    rw [hdelay]
    exact h

/-- Claim C8: `flush()` never emits an empty string; flushing an empty or
whitespace-only accumulator emits nothing; and a second `flush()` with no
intervening `push()` emits nothing (at most one emission for the same
accumulator contents). -/
theorem flush_never_empty_never_double (sb : SB) :
    (∀ m, (SB.flush sb).2 = some m → m ≠ "") ∧
    (sb.buffer.data.all isJsWhitespace = true → (SB.flush sb).2 = none) ∧
    (SB.flush (SB.flush sb).1).2 = none := by
  refine ⟨?_, ?_, ?_⟩
  · intro m hm
    simp only [SB.flush] at hm
    split at hm
    · rename_i hne
      cases hm
      exact hne
    · cases hm
  · intro h
    simp only [SB.flush, sbNormalize_allWs sb.buffer h]
    rfl
  · rfl

/-- Claim C9: whenever any of `send()`'s preflight gates (the three
`preflightChecks` gates, the cooldown, or the listen-before-transmit
guard) fails, `send` returns an unsuccessful outcome, leaves every
`TxState` field (including `qrlCheckedForFrequency` and the armed
duration-watchdog timer) unchanged, and issues no decoder call. -/
theorem send_gate_failure_frame (cfg : ChannelConfig) (st : TxState) (now : Nat)
    (text : String) (w : Option Nat) (intent : Option TxIntent) (pc : Option String)
    (h : preflightChecks cfg st ≠ none ∨ checkCooldown st now ≠ none ∨
      checkListenGuard st now ≠ none) :
    (send cfg st now text w intent pc).1.success = false ∧
    (send cfg st now text w intent pc).2.1 = st ∧
    (send cfg st now text w intent pc).2.2 = [] := by
  rcases hpf : preflightChecks cfg st with _ | r
  · rcases hcd : checkCooldown st now with _ | r
    · rcases hlg : checkListenGuard st now with _ | r
      · rcases h with h | h | h <;> [exact absurd hpf h; exact absurd hcd h; exact absurd hlg h]
      · refine ⟨?_, ?_, ?_⟩ <;> simp only [send, hpf, hcd, hlg]
        exact listen_fail_result st now r hlg
    · refine ⟨?_, ?_, ?_⟩ <;> simp only [send, hpf, hcd]
      exact cooldown_fail_result st now r hcd
  · refine ⟨?_, ?_, ?_⟩ <;> simp only [send, hpf]
    exact preflight_fail_result cfg st r hpf

/-- Witness for `send_gate_failure_frame`: an inhibited transmitter
(emergency stop latched) rejects a send and leaves the state and the
decoder untouched. -/
theorem send_gate_failure_frame_witness :
    (send exampleCfg ⟨0, 0, 20000, none, true, none⟩ 40000 "HELLO" none none none).1.success = false ∧
    (send exampleCfg ⟨0, 0, 20000, none, true, none⟩ 40000 "HELLO" none none none).2.1 =
      ⟨0, 0, 20000, none, true, none⟩ ∧
    (send exampleCfg ⟨0, 0, 20000, none, true, none⟩ 40000 "HELLO" none none none).2.2 = [] :=
  send_gate_failure_frame exampleCfg ⟨0, 0, 20000, none, true, none⟩ 40000 "HELLO"
    none none none (Or.inl (by decide))

/-- Claim C3: with every other gate passing at time `t > 0`, the first of
two back-to-back `send()` calls (no elapsed time) succeeds and the second
returns an unsuccessful outcome whose error names the cooldown; the
cooldown gate never fires before the first transmission ever
(`lastTxTime = 0`), and once a transmission has started it passes exactly
when at least `TX_COOLDOWN_MS = 500` ms have elapsed. -/
theorem cooldown_enforcement (cfg : ChannelConfig) (st : TxState) (t : Nat)
    (text : String) (w : Option Nat) (intent : Option TxIntent) (pc : Option String)
    (hpf : preflightChecks cfg st = none) (hcd : checkCooldown st t = none)
    (hlg : checkListenGuard st t = none) (hsan : sanitizeForCw text ≠ "")
    (ht : 0 < t) :
    (send cfg st t text w intent pc).1.success = true ∧
    (send cfg (send cfg st t text w intent pc).2.1 t text w intent pc).1.success = false ∧
    (send cfg (send cfg st t text w intent pc).2.1 t text w intent pc).1.error =
      some "TX cooldown: wait 500ms" ∧
    (∀ st' : TxState, ∀ n : Nat, st'.lastTxTime = 0 → checkCooldown st' n = none) ∧
    (∀ st' : TxState, ∀ n : Nat, 0 < st'.lastTxTime →
      (checkCooldown st' n = none ↔ TX_COOLDOWN_MS ≤ n - st'.lastTxTime)) := by
  have heq := send_success_eq cfg st t text w intent pc hpf hcd hlg hsan
  have hstate : (send cfg st t text w intent pc).2.1 = sendSuccState cfg st t := by
    rw [heq]
  have hpf2 : preflightChecks cfg (sendSuccState cfg st t) = none := by
    rw [preflightChecks_inhibited_congr cfg (sendSuccState cfg st t) st
      (sendSuccState_inhibited cfg st t)]
    exact hpf
  have hcd2 : checkCooldown (sendSuccState cfg st t) t =
      some ⟨false, some "TX cooldown: wait 500ms", none⟩ := by
    simp only [checkCooldown, sendSuccState_lastTxTime, Nat.sub_self]
    rw [if_pos ⟨ht, by decide⟩]
    rfl
  have hsecond : send cfg (sendSuccState cfg st t) t text w intent pc =
      (⟨false, some "TX cooldown: wait 500ms", none⟩, sendSuccState cfg st t, []) := by
    simp only [send, hpf2, hcd2]
  refine ⟨?_, ?_, ?_, ?_, ?_⟩
  · rw [heq]
  · rw [hstate, hsecond]
  · rw [hstate, hsecond]
  · intro st' n h0
    simp only [checkCooldown, h0]
    rw [if_neg (by omega)]
  · intro st' n hpos
    simp only [checkCooldown, TX_COOLDOWN_MS]
    constructor
    · intro hnone
      by_contra hlt
      rw [if_pos ⟨hpos, by omega⟩] at hnone
      cases hnone
    · intro hge
      rw [if_neg (by omega)]

/-- Witness for `cooldown_enforcement`: a concrete transmitter that has
listened since t=1000 sends successfully at t=20000, and an immediate
second send at t=20000 is rejected with the cooldown error. -/
theorem cooldown_enforcement_witness :
    (send exampleCfg ⟨0, 0, 1000, none, false, none⟩ 20000 "HELLO" none none none).1.success = true ∧
    (send exampleCfg (send exampleCfg ⟨0, 0, 1000, none, false, none⟩ 20000 "HELLO" none none none).2.1
      20000 "HELLO" none none none).1.success = false ∧
    (send exampleCfg (send exampleCfg ⟨0, 0, 1000, none, false, none⟩ 20000 "HELLO" none none none).2.1
      20000 "HELLO" none none none).1.error = some "TX cooldown: wait 500ms" := by
  have h := cooldown_enforcement exampleCfg ⟨0, 0, 1000, none, false, none⟩ 20000 "HELLO"
    none none none (by decide) (by decide) (by decide) (by decide) (by decide)
  exact ⟨h.1, h.2.1, h.2.2.1⟩

/-- Claim C4: on every successful `send()`, if identification is due (at
least `LEGAL_ID_INTERVAL_MS` since the last identification, or no
identification ever sent), the transmitted text ends with the station
identifier and the new identification time is recorded; the statement is
quantified over every intent, so no intent value can skip it. -/
theorem legal_id_appended (cfg : ChannelConfig) (st : TxState) (now : Nat)
    (text : String) (w : Option Nat) (intent : Option TxIntent) (pc : Option String)
    (hpf : preflightChecks cfg st = none) (hcd : checkCooldown st now = none)
    (hlg : checkListenGuard st now = none) (hsan : sanitizeForCw text ≠ "")
    (hdue : st.lastIdTime = 0 ∨ LEGAL_ID_INTERVAL_MS ≤ now - st.lastIdTime) :
    (send cfg st now text w intent pc).1.success = true ∧
    (send cfg st now text w intent pc).1.transmitted =
      some (sendFinalText cfg st now text intent pc) ∧
    jsEndsWith (sendFinalText cfg st now text intent pc) cfg.tx.callsign = true ∧
    (send cfg st now text w intent pc).2.1.lastIdTime = now := by
  have hid : isLegalIdDue st now = true := by
    unfold isLegalIdDue
    rcases hdue with h0 | hge
    · rw [if_pos h0]
    · split
      · rfl
      · exact decide_eq_true hge
  have heq := send_success_eq cfg st now text w intent pc hpf hcd hlg hsan
  refine ⟨by rw [heq], by rw [heq], ?_, ?_⟩
  · simp only [sendFinalText, hid, if_true]
    exact jsEndsWith_append _ _
  · rw [heq]
    exact sendSuccState_lastIdTime_of_due cfg st now hid

/-- Witness for `legal_id_appended`: a first-ever transmission (no prior
identification) appends `DE PA3XYZ` and records the identification
time. -/
theorem legal_id_appended_witness :
    (send exampleCfg ⟨0, 0, 1000, none, false, none⟩ 20000 "QRL?" none (some TxIntent.cq) none).1.success = true ∧
    jsEndsWith (sendFinalText exampleCfg ⟨0, 0, 1000, none, false, none⟩ 20000 "QRL?"
      (some TxIntent.cq) none) "PA3XYZ" = true ∧
    (send exampleCfg ⟨0, 0, 1000, none, false, none⟩ 20000 "QRL?" none (some TxIntent.cq) none).2.1.lastIdTime = 20000 := by
  have h := legal_id_appended exampleCfg ⟨0, 0, 1000, none, false, none⟩ 20000 "QRL?"
    none (some TxIntent.cq) none (by decide) (by decide) (by decide) (by decide) (Or.inl rfl)
  exact ⟨h.1, h.2.2.1, h.2.2.2⟩

/-- Claim C1, corrected.  The original claim says `checkQrl()` is gated by
all five of `send()`'s preflight gates; in the code it is gated only by
the three `preflightChecks` gates (transmit enabled, not inhibited,
callsign configured) — the cooldown and listen-before-transmit gates are
separate checks inside `send` that `checkQrl` never runs.  Amended:
whenever any of the three `preflightChecks` gates would fail, `checkQrl`
returns `false` without touching state and without issuing any decoder
call (no transmit-buffer write, no transmission start). -/
theorem checkQrl_preflight_gates (cfg : ChannelConfig) (st : TxState)
    (rxBefore rxAfter : Nat) (r : TransmitResult)
    (h : preflightChecks cfg st = some r) :
    checkQrl cfg st rxBefore rxAfter = (false, st, []) := by
  simp only [checkQrl, h]

/-- Witness for `checkQrl_preflight_gates`: with TX disabled in config,
`checkQrl` returns false and issues no decoder call. -/
theorem checkQrl_preflight_gates_witness :
    checkQrl ⟨7030000, ⟨false, false, 120, 20, "PA3XYZ"⟩⟩ ⟨0, 0, 0, none, false, none⟩ 0 0 =
      (false, ⟨0, 0, 0, none, false, none⟩, []) :=
  checkQrl_preflight_gates ⟨7030000, ⟨false, false, 120, 20, "PA3XYZ"⟩⟩
    ⟨0, 0, 0, none, false, none⟩ 0 0 ⟨false, some "TX is disabled in config", none⟩ (by decide)

/-- Counterexample to claim C1 as stated: a transmitter state in which
`send()`'s cooldown gate and listen-before-transmit gate would both fail
(a transmission just started at t=100, listening never marked), yet
`checkQrl` writes `QRL?` to the transmit buffer, starts a transmission,
and returns `true`. -/
theorem checkQrl_not_cooldown_gated :
    (checkCooldown ⟨100, 0, 0, none, false, none⟩ 100).isSome = true ∧
    (checkListenGuard ⟨100, 0, 0, none, false, none⟩ 100).isSome = true ∧
    (checkQrl exampleCfg ⟨100, 0, 0, none, false, none⟩ 0 0).1 = true ∧
    ClientCall.sendTxText "QRL?" ∈ (checkQrl exampleCfg ⟨100, 0, 0, none, false, none⟩ 0 0).2.2 ∧
    ClientCall.startTx ∈ (checkQrl exampleCfg ⟨100, 0, 0, none, false, none⟩ 0 0).2.2 := by
  decide

/-- Claim C2, corrected.  The original claim says the computed transmit
speed is even for every detected receive speed ≥ 5; at detected speed 5
the code computes `max 5 (min (floor(5/2)*2) 60) = max 5 4 = 5`, which is
odd.  Amended: for every detected speed ≥ 5 the computed speed is ≤ the
detected speed and within [5, 60]; it is even whenever the detected speed
is ≥ 6 (at detected speed 5 it is the odd clamp value 5); when the
detected speed is below the threshold or absent, the configured default
speed is used. -/
theorem resolveWpm_bounds (cfg : ChannelConfig) (w : Nat) :
    (5 ≤ w → resolveWpm cfg (some w) ≤ w ∧ 5 ≤ resolveWpm cfg (some w) ∧
      resolveWpm cfg (some w) ≤ 60) ∧
    (6 ≤ w → resolveWpm cfg (some w) % 2 = 0) ∧
    (w < 5 → resolveWpm cfg (some w) = cfg.tx.wpm) ∧
    resolveWpm cfg none = cfg.tx.wpm := by
  simp only [resolveWpm]
  refine ⟨?_, ?_, ?_, by trivial⟩
  · intro h5
    rw [if_pos ⟨by omega, h5⟩]
    omega
  · intro h6
    rw [if_pos ⟨by omega, by omega⟩]
    omega
  · intro hlt
    split
    · rename_i hc
      exact absurd hc.2 (by omega)
    · rfl

/-- Witness for `resolveWpm_bounds`: detected 23 WPM gives 22 (even,
≤ 23, in range); detected 4 WPM falls back to the configured default. -/
theorem resolveWpm_bounds_witness :
    (resolveWpm exampleCfg (some 23) ≤ 23 ∧ 5 ≤ resolveWpm exampleCfg (some 23) ∧
      resolveWpm exampleCfg (some 23) ≤ 60) ∧
    resolveWpm exampleCfg (some 23) % 2 = 0 ∧
    resolveWpm exampleCfg (some 4) = exampleCfg.tx.wpm :=
  ⟨(resolveWpm_bounds exampleCfg 23).1 (by decide),
   (resolveWpm_bounds exampleCfg 23).2.1 (by decide),
   (resolveWpm_bounds exampleCfg 4).2.2.1 (by decide)⟩

/-- Counterexample to claim C2 as stated: the detected receive speed 5
passes the threshold, and the computed transmit speed is 5 — not even. -/
theorem resolveWpm_odd_at_five :
    resolveWpm exampleCfg (some 5) = 5 ∧ resolveWpm exampleCfg (some 5) % 2 = 1 := by
  decide

/-- Witness for `flush_never_empty_never_double`: a whitespace-only
accumulator emits nothing; a non-trivial flush followed by a second flush
emits nothing the second time; an actual emission is a non-empty string. -/
theorem flush_never_empty_never_double_witness :
    (SB.flush ⟨" \t  ", true⟩).2 = none ∧
    (SB.flush (SB.flush ⟨"CQ CQ", true⟩).1).2 = none ∧
    ("CQ CQ" : String) ≠ "" :=
  ⟨(flush_never_empty_never_double ⟨" \t  ", true⟩).2.1 (by decide),
   (flush_never_empty_never_double ⟨"CQ CQ", true⟩).2.2,
   (flush_never_empty_never_double ⟨"CQ CQ", true⟩).1 "CQ CQ" (by decide)⟩

/-! ## Lemmas for the sanitizer's canonical form -/

theorem char_toNat_inj {a b : Char} (h : a.toNat = b.toNat) : a = b :=
  Char.eq_of_val_eq (UInt32.toNat.inj h)

theorem valid_ws_eq_space (c : Char) (hv : isValidCwChar c = true)
    (hw : isJsWhitespace c = true) : c = ' ' := by
  simp only [isValidCwChar, Bool.or_eq_true, Bool.and_eq_true, decide_eq_true_eq] at hv
  simp only [isJsWhitespace, Bool.or_eq_true, Bool.and_eq_true, decide_eq_true_eq] at hw
  have hsp : (' ' : Char).toNat = 32 := rfl
  exact char_toNat_inj (by omega)

theorem valid_jsToUpper_id (c : Char) (hv : isValidCwChar c = true) : jsToUpper c = c := by
  simp only [isValidCwChar, Bool.or_eq_true, Bool.and_eq_true, decide_eq_true_eq] at hv
  unfold jsToUpper
  rw [if_neg (by simp only [Bool.and_eq_true, decide_eq_true_eq]; omega)]

theorem noAdjWs_cons (c : Char) (l : List Char) :
    noAdjWs (c :: l) = ((headNotWs l || !isJsWhitespace c) && noAdjWs l) := by
  cases l with
  | nil => cases h : isJsWhitespace c <;> simp [noAdjWs, headNotWs]
  | cons d rest =>
    cases h1 : isJsWhitespace c <;> cases h2 : isJsWhitespace d <;>
      simp [noAdjWs, headNotWs, h1, h2]

theorem noAdjWs_tail (c : Char) (l : List Char) (h : noAdjWs (c :: l) = true) :
    noAdjWs l = true := by
  rw [noAdjWs_cons, Bool.and_eq_true] at h
  exact h.2

theorem headNotWs_collapseWsGo_true (l : List Char) :
    headNotWs (collapseWsGo true l) = true := by
  induction l with
  | nil => rfl
  | cons c rest ih =>
    cases h : isJsWhitespace c
    · simp [collapseWsGo, h, headNotWs]
    · simpa [collapseWsGo, h] using ih

theorem noAdjWs_collapseWsGo (l : List Char) (b : Bool) :
    noAdjWs (collapseWsGo b l) = true := by
  induction l generalizing b with
  | nil => rfl
  | cons c rest ih =>
    cases h : isJsWhitespace c
    · simp only [collapseWsGo, h, Bool.false_eq_true, if_false]
      rw [noAdjWs_cons, Bool.and_eq_true, Bool.or_eq_true]
      exact ⟨Or.inr (by simp [h]), ih false⟩
    · cases b
      · simp only [collapseWsGo, h, if_true, Bool.false_eq_true, if_false]
        rw [noAdjWs_cons, Bool.and_eq_true, Bool.or_eq_true]
        exact ⟨Or.inl (headNotWs_collapseWsGo_true rest), ih true⟩
      · simpa [collapseWsGo, h] using ih true

theorem mem_collapseWsGo (l : List Char) (b : Bool) (d : Char)
    (hd : d ∈ collapseWsGo b l) : d = ' ' ∨ d ∈ l := by
  induction l generalizing b with
  | nil => cases hd
  | cons c rest ih =>
    cases h : isJsWhitespace c
    · simp only [collapseWsGo, h, Bool.false_eq_true, if_false] at hd
      rcases List.mem_cons.mp hd with h1 | h1
      · exact Or.inr (h1 ▸ List.mem_cons_self c rest)
      · rcases ih false h1 with h2 | h2
        · exact Or.inl h2
        · exact Or.inr (List.mem_cons_of_mem c h2)
    · cases b
      · simp only [collapseWsGo, h, if_true, Bool.false_eq_true, if_false] at hd
        rcases List.mem_cons.mp hd with h1 | h1
        · exact Or.inl h1
        · rcases ih true h1 with h2 | h2
          · exact Or.inl h2
          · exact Or.inr (List.mem_cons_of_mem c h2)
      · simp only [collapseWsGo, h, if_true] at hd
        rcases ih true hd with h2 | h2
        · exact Or.inl h2
        · exact Or.inr (List.mem_cons_of_mem c h2)

theorem collapseWsGo_id (l : List Char) (b : Bool)
    (hv : ∀ c ∈ l, isValidCwChar c = true)
    (hadj : noAdjWs l = true)
    (hb : b = true → headNotWs l = true) :
    collapseWsGo b l = l := by
  induction l generalizing b with
  | nil => rfl
  | cons c rest ih =>
    cases h : isJsWhitespace c
    · simp only [collapseWsGo, h, Bool.false_eq_true, if_false]
      congr 1
      exact ih false (fun d hd => hv d (List.mem_cons_of_mem c hd))
        (noAdjWs_tail c rest hadj)
        (fun hf => absurd hf (by simp))
    · have hc : c = ' ' := valid_ws_eq_space c (hv c (List.mem_cons_self c rest)) h
      have hhead : headNotWs rest = true := by
        rw [noAdjWs_cons, Bool.and_eq_true, Bool.or_eq_true] at hadj
        rcases hadj.1 with h1 | h1
        · exact h1
        · rw [h] at h1
          cases h1
      cases b
      · simp only [collapseWsGo, h, if_true, Bool.false_eq_true, if_false]
        rw [hc]
        congr 1
        exact ih true (fun d hd => hv d (List.mem_cons_of_mem c hd))
          (noAdjWs_tail c rest hadj)
          (fun _ => hhead)
      · exact absurd (hb rfl) (by simp [headNotWs, h])

theorem headNotWs_dropWhileWs (l : List Char) :
    headNotWs (l.dropWhile isJsWhitespace) = true := by
  induction l with
  | nil => rfl
  | cons c rest ih =>
    cases h : isJsWhitespace c
    · simp [List.dropWhile_cons, h, headNotWs]
    · simpa [List.dropWhile_cons, h] using ih

theorem noAdjWs_dropWhileWs (l : List Char) (hadj : noAdjWs l = true) :
    noAdjWs (l.dropWhile isJsWhitespace) = true := by
  induction l with
  | nil => exact hadj
  | cons c rest ih =>
    cases h : isJsWhitespace c
    · simpa [List.dropWhile_cons, h] using hadj
    · simp only [List.dropWhile_cons, h, if_true]
      exact ih (noAdjWs_tail c rest hadj)

theorem mem_dropWhileWs (l : List Char) (d : Char)
    (hd : d ∈ l.dropWhile isJsWhitespace) : d ∈ l := by
  induction l with
  | nil => cases hd
  | cons c rest ih =>
    cases h : isJsWhitespace c
    · rw [List.dropWhile_cons, if_neg (by simp [h])] at hd
      exact hd
    · rw [List.dropWhile_cons, if_pos (by simp [h])] at hd
      exact List.mem_cons_of_mem c (ih hd)

theorem dropWhileWs_id (l : List Char) (h : headNotWs l = true) :
    l.dropWhile isJsWhitespace = l := by
  cases l with
  | nil => rfl
  | cons c rest =>
    simp only [headNotWs, Bool.not_eq_true'] at h
    rw [List.dropWhile_cons, if_neg (by simp [h])]

theorem headNotWs_dropTrailingWs (l : List Char) (h : headNotWs l = true) :
    headNotWs (dropTrailingWs l) = true := by
  cases l with
  | nil => rfl
  | cons c rest =>
    simp only [dropTrailingWs]
    split
    · rfl
    · exact h

theorem mem_dropTrailingWs (l : List Char) (d : Char)
    (hd : d ∈ dropTrailingWs l) : d ∈ l := by
  induction l with
  | nil => cases hd
  | cons c rest ih =>
    simp only [dropTrailingWs] at hd
    split at hd
    · cases hd
    · rcases List.mem_cons.mp hd with h1 | h1
      · exact h1 ▸ List.mem_cons_self c rest
      · exact List.mem_cons_of_mem c (ih h1)

theorem noAdjWs_dropTrailingWs (l : List Char) (hadj : noAdjWs l = true) :
    noAdjWs (dropTrailingWs l) = true := by
  induction l with
  | nil => rfl
  | cons c rest ih =>
    simp only [dropTrailingWs]
    split
    · rfl
    · rw [noAdjWs_cons, Bool.and_eq_true, Bool.or_eq_true]
      refine ⟨?_, ih (noAdjWs_tail c rest hadj)⟩
      cases h : isJsWhitespace c
      · exact Or.inr (by simp)
      · rw [noAdjWs_cons, Bool.and_eq_true, Bool.or_eq_true] at hadj
        rcases hadj.1 with h1 | h1
        · exact Or.inl (headNotWs_dropTrailingWs rest h1)
        · rw [h] at h1
          cases h1

theorem noTrailWs_dropTrailingWs (l : List Char) :
    noTrailWs (dropTrailingWs l) = true := by
  induction l with
  | nil => rfl
  | cons c rest ih =>
    simp only [dropTrailingWs]
    split
    · rfl
    · rename_i hcond
      cases hX : dropTrailingWs rest with
      | nil =>
        rw [hX] at hcond
        simp only [List.isEmpty_nil, Bool.true_and] at hcond
        simp [noTrailWs, hcond]
      | cons d xs =>
        show noTrailWs (c :: d :: xs) = true
        show noTrailWs (d :: xs) = true
        rw [← hX]
        exact ih

theorem dropTrailingWs_id (l : List Char) (h : noTrailWs l = true) :
    dropTrailingWs l = l := by
  induction l with
  | nil => rfl
  | cons c rest ih =>
    cases rest with
    | nil =>
      simp only [noTrailWs, Bool.not_eq_true'] at h
      simp [dropTrailingWs, h]
    | cons d xs =>
      have h2 : noTrailWs (d :: xs) = true := h
      show (if (dropTrailingWs (d :: xs)).isEmpty && isJsWhitespace c then []
        else c :: dropTrailingWs (d :: xs)) = c :: d :: xs
      rw [ih h2]
      simp

theorem jsTrim_id (l : List Char) (hhead : headNotWs l = true)
    (htrail : noTrailWs l = true) : jsTrim l = l := by
  unfold jsTrim
  rw [dropWhileWs_id l hhead, dropTrailingWs_id l htrail]

theorem map_jsToUpper_id (l : List Char) (hv : ∀ c ∈ l, isValidCwChar c = true) :
    l.map jsToUpper = l := by
  induction l with
  | nil => rfl
  | cons c rest ih =>
    rw [List.map_cons, valid_jsToUpper_id c (hv c (List.mem_cons_self c rest)),
      ih (fun d hd => hv d (List.mem_cons_of_mem c hd))]

theorem filter_valid_id (l : List Char) (hv : ∀ c ∈ l, isValidCwChar c = true) :
    l.filter isValidCwChar = l :=
  List.filter_eq_self.mpr hv

theorem sanitize_all_valid (s : String) :
    ∀ c ∈ (sanitizeForCw s).data, isValidCwChar c = true := by
  intro c hc
  have hc1 : c ∈ collapseWs ((s.data.map jsToUpper).filter isValidCwChar) :=
    mem_dropWhileWs _ c (mem_dropTrailingWs _ c hc)
  rcases mem_collapseWsGo _ false c hc1 with h1 | h1
  · rw [h1]
    decide
  · exact (List.mem_filter.mp h1).2

theorem sanitize_canonical (s : String) :
    headNotWs (sanitizeForCw s).data = true ∧
    noTrailWs (sanitizeForCw s).data = true ∧
    noAdjWs (sanitizeForCw s).data = true :=
  ⟨headNotWs_dropTrailingWs _ (headNotWs_dropWhileWs _),
   noTrailWs_dropTrailingWs _,
   noAdjWs_dropTrailingWs _ (noAdjWs_dropWhileWs _ (noAdjWs_collapseWsGo _ false))⟩

/-- Claim C10: `sanitizeForCw` is idempotent, and its output contains
only characters of `VALID_CW_CHARS` (all uppercase — the character class
has no lowercase letters), with whitespace runs collapsed to single
spaces (`noAdjWs`) and no leading (`headNotWs`) or trailing
(`noTrailWs`) whitespace. -/
theorem sanitizeForCw_idempotent (s : String) :
    sanitizeForCw (sanitizeForCw s) = sanitizeForCw s ∧
    (sanitizeForCw s).data.all isValidCwChar = true ∧
    noAdjWs (sanitizeForCw s).data = true ∧
    headNotWs (sanitizeForCw s).data = true ∧
    noTrailWs (sanitizeForCw s).data = true := by
  have hv := sanitize_all_valid s
  have hcan := sanitize_canonical s
  refine ⟨?_, List.all_eq_true.mpr hv, hcan.2.2, hcan.1, hcan.2.1⟩
  show (⟨jsTrim (collapseWs (((sanitizeForCw s).data.map jsToUpper).filter
    isValidCwChar))⟩ : String) = sanitizeForCw s
  rw [map_jsToUpper_id _ hv, filter_valid_id _ hv,
    show collapseWs (sanitizeForCw s).data = (sanitizeForCw s).data from
      collapseWsGo_id _ false hv hcan.2.2 (fun hf => absurd hf (by simp)),
    jsTrim_id _ hcan.1 hcan.2.1]

end CQLaw
